import Mathlib

/-!
Verification of the training notebooks in `intro-to-pytorch`
(`Part 3 - Training Neural Networks` and `Part 4 - Fashion-MNIST`).

Both notebooks contain the same per-epoch training loop:

```
epochs = 5
for e in range(epochs):
    running_loss = 0
    for images, labels in trainloader:
        images = images.view(images.shape[0], -1)
        optimizer.zero_grad()
        output = model(images)
        loss = criterion(output, labels)
        loss.backward()
        optimizer.step()
        running_loss += loss.item()
    else:
        print(f"Training loss: {running_loss/len(trainloader)}")
```

We embed this loop shallowly: the per-mini-batch body is a list of
statements (`bodyStmts`), interpreted over a state (`St`) by `execStmt`,
parametric in the framework primitives (`Fw`): the flattening `view`,
the model forward pass, the loss criterion, the gradient computed by
`loss.backward()`, the optimizer update, and gradient accumulation.
The loss object created by `loss = criterion(output, labels)` records
the parameters, images and labels it was built from (`lossGraph`),
since `loss.backward()` differentiates through exactly those.
-/

/-- The statements of the per-mini-batch body of the training loop,
in the source's order. -/
inductive Stmt where
  /-- `images = images.view(images.shape[0], -1)` -/
  | flatten : Stmt
  /-- `optimizer.zero_grad()` -/
  | zero_grad : Stmt
  /-- `output = model(images)` -/
  | forward : Stmt
  /-- `loss = criterion(output, labels)` -/
  | lossCalc : Stmt
  /-- `loss.backward()` -/
  | backward : Stmt
  /-- `optimizer.step()` -/
  | step : Stmt
  /-- `running_loss += loss.item()` -/
  | accumulate : Stmt
  deriving DecidableEq, Repr, Fintype

/-- The body of the inner `for images, labels in trainloader:` loop, as
written in both notebooks: flatten, zero the gradients, forward pass,
loss, backward pass, optimizer step, accumulate the running loss. -/
def bodyStmts : List Stmt :=
  [Stmt.flatten, Stmt.zero_grad, Stmt.forward, Stmt.lossCalc,
   Stmt.backward, Stmt.step, Stmt.accumulate]

/-- The framework primitives the loop calls, abstract in the parameter
type `P`, gradient type `G`, image-batch type `I`, label-batch type `L`
and model-output type `O`.  `gAdd`/`gZero` model gradient accumulation:
`loss.backward()` adds the new gradient onto the stored one, and
`optimizer.zero_grad()` resets the stored gradient. -/
structure Fw (P G I L O : Type) where
  /-- `images.view(images.shape[0], -1)` -/
  view : I → I
  /-- the forward pass `model(images)` -/
  model : P → I → O
  /-- `criterion(output, labels)`, as its scalar value `loss.item()` -/
  criterion : O → L → ℚ
  /-- the gradient `loss.backward()` computes for the loss built from
  these parameters, images and labels -/
  grad : P → I → L → G
  /-- the optimizer's in-place parameter update -/
  stepUpd : P → G → P
  /-- accumulation of a fresh gradient onto the stored one -/
  gAdd : G → G → G
  /-- the zeroed gradient written by `optimizer.zero_grad()` -/
  gZero : G

/-- The interpreter state: the model parameters, the stored gradients,
the loop variables `images`, `labels`, the locals `output` and `loss`
(its provenance `lossGraph` and its value `lossVal`), and the epoch's
`running_loss` accumulator. -/
structure St (P G I L O : Type) where
  params : P
  grads : G
  images : I
  labels : L
  output : O
  lossGraph : P × I × L
  lossVal : ℚ
  running_loss : ℚ
  deriving DecidableEq

variable {P G I L O : Type}

/-- One statement of the body, executed on the state: a direct
translation of the seven source lines. -/
def execStmt (fw : Fw P G I L O) (st : Stmt) (s : St P G I L O) :
    St P G I L O :=
  match st with
  | Stmt.flatten => { s with images := fw.view s.images }
  | Stmt.zero_grad => { s with grads := fw.gZero }
  | Stmt.forward => { s with output := fw.model s.params s.images }
  | Stmt.lossCalc =>
      { s with lossVal := fw.criterion s.output s.labels,
               lossGraph := (s.params, s.images, s.labels) }
  | Stmt.backward =>
      { s with
        grads := fw.gAdd s.grads
          (fw.grad s.lossGraph.1 s.lossGraph.2.1 s.lossGraph.2.2) }
  | Stmt.step => { s with params := fw.stepUpd s.params s.grads }
  | Stmt.accumulate =>
      { s with running_loss := s.running_loss + s.lossVal }

/-- Sequential execution of a list of statements. -/
def runStmts (fw : Fw P G I L O) (stmts : List Stmt) (s : St P G I L O) :
    St P G I L O :=
  stmts.foldl (fun t st => execStmt fw st t) s

/-- `for images, labels in trainloader:` binds the batch's images and
labels before the body runs. -/
def setBatch (s : St P G I L O) (b : I × L) : St P G I L O :=
  { s with images := b.1, labels := b.2 }

/-- One iteration of the inner loop on one mini-batch. -/
def runBody (fw : Fw P G I L O) (b : I × L) (s : St P G I L O) :
    St P G I L O :=
  runStmts fw bodyStmts (setBatch s b)

/-- The inner loop over all batches of the loader. -/
def runLoop (fw : Fw P G I L O) : List (I × L) → St P G I L O → St P G I L O
  | [], s => s
  | b :: bs, s => runLoop fw bs (runBody fw b s)

/-- The values `loss.item()` takes along an epoch, batch by batch
(each computed at the parameters as trained so far). -/
def epochLosses (fw : Fw P G I L O) :
    List (I × L) → St P G I L O → List ℚ
  | [], _ => []
  | b :: bs, s =>
      (runBody fw b s).lossVal :: epochLosses fw bs (runBody fw b s)

/-- One epoch: `running_loss = 0`, then the inner loop. -/
def runEpoch (fw : Fw P G I L O) (batches : List (I × L))
    (s : St P G I L O) : St P G I L O :=
  runLoop fw batches { s with running_loss := 0 }

/-- The value printed by the epoch's `else: print(...)` clause. -/
def epochPrint (fw : Fw P G I L O) (batches : List (I × L))
    (s : St P G I L O) : ℚ :=
  (runEpoch fw batches s).running_loss / (batches.length : ℚ)

/-- The outer `for e in range(epochs):` loop, returning the final state
and the list of printed training-loss values, one per epoch. -/
def train (fw : Fw P G I L O) (batches : List (I × L)) :
    ℕ → St P G I L O → St P G I L O × List ℚ
  | 0, s => (s, [])
  | n + 1, s =>
      let s1 := runEpoch fw batches s
      let rest := train fw batches n s1
      (rest.1, epochPrint fw batches s :: rest.2)

theorem runBody_running_loss (fw : Fw P G I L O) (b : I × L)
    (s : St P G I L O) :
    (runBody fw b s).running_loss = s.running_loss + (runBody fw b s).lossVal := by
  simp [runBody, runStmts, bodyStmts, execStmt, setBatch]

theorem runLoop_running_loss (fw : Fw P G I L O) (bs : List (I × L))
    (s : St P G I L O) :
    (runLoop fw bs s).running_loss
      = s.running_loss + (epochLosses fw bs s).sum := by
  induction bs generalizing s with
  | nil => simp [runLoop, epochLosses]
  | cons b bs ih =>
      simp only [runLoop, epochLosses, List.sum_cons]
      rw [ih, runBody_running_loss]
      ring

/-- Statement-by-statement execution recording, in order, the statements
it executes. -/
def runStmtsTr (fw : Fw P G I L O) :
    List Stmt → St P G I L O → St P G I L O × List Stmt
  | [], s => (s, [])
  | st :: rest, s =>
      let r := runStmtsTr fw rest (execStmt fw st s)
      (r.1, st :: r.2)

/-- The inner loop over the loader's batches, recording the statements
executed across all iterations. -/
def runEpochTr (fw : Fw P G I L O) :
    List (I × L) → St P G I L O → St P G I L O × List Stmt
  | [], s => (s, [])
  | b :: bs, s =>
      let r1 := runStmtsTr fw bodyStmts (setBatch s b)
      let r2 := runEpochTr fw bs r1.1
      (r2.1, r1.2 ++ r2.2)

theorem runStmtsTr_eq (fw : Fw P G I L O) (stmts : List Stmt)
    (s : St P G I L O) :
    runStmtsTr fw stmts s = (runStmts fw stmts s, stmts) := by
  induction stmts generalizing s with
  | nil => rfl
  | cons st rest ih => simp [runStmtsTr, runStmts, ih, List.foldl_cons]

theorem runEpochTr_fst (fw : Fw P G I L O) (bs : List (I × L))
    (s : St P G I L O) :
    (runEpochTr fw bs s).1 = runLoop fw bs s := by
  induction bs generalizing s with
  | nil => rfl
  | cons b rest ih => simp [runEpochTr, runLoop, runStmtsTr_eq, ih, runBody]

/-- A concrete instantiation of the framework over the rationals, used
to exhibit the theorems below at specific inputs. -/
def fwQ : Fw ℚ ℚ ℚ ℚ ℚ where
  view x := 2 * x
  model p x := p * x
  criterion o l := o - l
  grad p x l := p + x + l
  stepUpd p g := p - g
  gAdd := (· + ·)
  gZero := 0

/-- A concrete interpreter state over the rationals. -/
def stQ : St ℚ ℚ ℚ ℚ ℚ where
  params := 3
  grads := 7
  images := 1
  labels := 2
  output := 0
  lossGraph := (0, 0, 0)
  lossVal := 0
  running_loss := 5

/-- Claim C1: in every mini-batch iteration of the training loop the
statements execute in the fixed source order — zero the gradients,
forward pass, loss, backward pass, optimizer step, accumulate the
running loss (preceded by the flattening `view`) — once per batch, with
no statement skipped or reordered: the trace of an epoch is exactly one
copy of `bodyStmts` per batch, the non-flatten statements of `bodyStmts`
are exactly the six operations in the claimed order, and each statement
occurs exactly once per iteration. -/
theorem trainLoop_fixed_order (fw : Fw P G I L O) (batches : List (I × L))
    (s : St P G I L O) :
    (runEpochTr fw batches s).2 = (batches.map fun _ => bodyStmts).flatten
    ∧ bodyStmts.filter (fun st => st ≠ Stmt.flatten)
        = [Stmt.zero_grad, Stmt.forward, Stmt.lossCalc, Stmt.backward,
           Stmt.step, Stmt.accumulate]
    ∧ ∀ st : Stmt, bodyStmts.count st = 1 := by
  refine ⟨?_, by decide, by decide⟩
  induction batches generalizing s with
  | nil => rfl
  | cons b rest ih => simp [runEpochTr, runStmtsTr_eq, ih]

/-- Claim C2: `optimizer.zero_grad()` precedes `loss.backward()` in
every iteration, so (gradient accumulation starting from the zeroed
gradient) the gradient stored when `optimizer.step()` runs — i.e. after
the first five statements of the body — is exactly the gradient of the
current mini-batch's loss, computed at the current parameters on the
flattened images and the labels, with no contribution from the gradient
`s.grads` left over before the iteration. -/
theorem zero_grad_before_backward (fw : Fw P G I L O)
    (hz : ∀ g, fw.gAdd fw.gZero g = g) (b : I × L) (s : St P G I L O) :
    bodyStmts.indexOf Stmt.zero_grad < bodyStmts.indexOf Stmt.backward
    ∧ (runStmts fw (bodyStmts.take 5) (setBatch s b)).grads
        = fw.grad s.params (fw.view b.1) b.2 := by
  refine ⟨by decide, ?_⟩
  simp [runStmts, bodyStmts, execStmt, setBatch, hz]

theorem zero_grad_before_backward_witness :
    bodyStmts.indexOf Stmt.zero_grad < bodyStmts.indexOf Stmt.backward
    ∧ (runStmts fwQ (bodyStmts.take 5) (setBatch stQ ((4 : ℚ), (6 : ℚ)))).grads
        = fwQ.grad stQ.params (fwQ.view (4 : ℚ)) (6 : ℚ) :=
  zero_grad_before_backward fwQ (fun g => zero_add g) ((4 : ℚ), (6 : ℚ)) stQ

/-- Claim C3: the running-loss accumulator is reset to zero at the start
of every epoch, after `k` batches of an epoch it equals the sum of the
`loss.item()` values of the batches processed so far, and the result of
an epoch does not depend on the accumulator value left by a previous
epoch. -/
theorem running_loss_invariant (fw : Fw P G I L O)
    (batches : List (I × L)) (s : St P G I L O) (k : ℕ) (x : ℚ) :
    (runLoop fw (batches.take k) { s with running_loss := 0 }).running_loss
      = (epochLosses fw (batches.take k) { s with running_loss := 0 }).sum
    ∧ runEpoch fw batches { s with running_loss := x }
      = runEpoch fw batches s := by
  constructor
  · rw [runLoop_running_loss]; simp
  · simp [runEpoch]

/-- Claim C4: the parameters are mutated only by `optimizer.step()`:
every other statement of the body (flatten, zero-grad, forward, loss,
backward, accumulate) leaves `params` unchanged, and `loss.backward()`
changes only the stored gradients, leaving the parameters and every
other state component unchanged. -/
theorem params_mutated_only_by_step (fw : Fw P G I L O)
    (s : St P G I L O) (st : Stmt) (h : st ≠ Stmt.step) :
    (execStmt fw st s).params = s.params
    ∧ (execStmt fw Stmt.backward s).params = s.params
    ∧ (execStmt fw Stmt.backward s).images = s.images
    ∧ (execStmt fw Stmt.backward s).labels = s.labels
    ∧ (execStmt fw Stmt.backward s).output = s.output
    ∧ (execStmt fw Stmt.backward s).lossVal = s.lossVal
    ∧ (execStmt fw Stmt.backward s).lossGraph = s.lossGraph
    ∧ (execStmt fw Stmt.backward s).running_loss = s.running_loss := by
  refine ⟨?_, rfl, rfl, rfl, rfl, rfl, rfl, rfl⟩
  cases st <;> first | rfl | exact absurd rfl h

theorem params_mutated_only_by_step_witness :
    (execStmt fwQ Stmt.forward stQ).params = stQ.params
    ∧ (execStmt fwQ Stmt.backward stQ).params = stQ.params
    ∧ (execStmt fwQ Stmt.backward stQ).images = stQ.images
    ∧ (execStmt fwQ Stmt.backward stQ).labels = stQ.labels
    ∧ (execStmt fwQ Stmt.backward stQ).output = stQ.output
    ∧ (execStmt fwQ Stmt.backward stQ).lossVal = stQ.lossVal
    ∧ (execStmt fwQ Stmt.backward stQ).lossGraph = stQ.lossGraph
    ∧ (execStmt fwQ Stmt.backward stQ).running_loss = stQ.running_loss :=
  params_mutated_only_by_step fwQ stQ Stmt.forward (by decide)

/-- The epoch's average loss: the sum of the epoch's per-batch
`loss.item()` values divided by the number of batches in the loader. -/
def epochAvg (fw : Fw P G I L O) (batches : List (I × L))
    (s : St P G I L O) : ℚ :=
  (epochLosses fw batches { s with running_loss := 0 }).sum
    / (batches.length : ℚ)

theorem epochPrint_eq_epochAvg (fw : Fw P G I L O)
    (batches : List (I × L)) (s : St P G I L O) :
    epochPrint fw batches s = epochAvg fw batches s := by
  simp [epochPrint, epochAvg, runEpoch, runLoop_running_loss]

/-- Kinds of externally visible outputs a notebook cell produces. -/
inductive OutKind where
  /-- a printed loss value (`print(loss)`, the training-loss line) -/
  | lossPrint : OutKind
  /-- a plotted image (`helper.view_classify`, `helper.imshow`) -/
  | imagePlot : OutKind
  /-- a printed tensor or autograd object (`print(x)`, `print(y.grad_fn)`) -/
  | tensorPrint : OutKind
  /-- a printed gradient (`print(x.grad)`, `print(model[0].weight.grad)`) -/
  | gradientPrint : OutKind
  /-- printed weights (`print('Initial weights - ', model[0].weight)`) -/
  | weightsPrint : OutKind
  deriving DecidableEq, Repr

/-- The output-producing statements of the Part 3 notebook, in cell
order: `print(loss)` twice, `print(x)`, `print(y)`, `print(y.grad_fn)`,
`print(z)`, `print(x.grad)` twice, `print(x/2)`, the before/after
backward-pass gradient prints, the initial-weights print, the gradient
print, the updated-weights print, the per-epoch training-loss print,
and the final `helper.view_classify` plot. -/
def part3Outputs : List OutKind :=
  [OutKind.lossPrint, OutKind.lossPrint, OutKind.tensorPrint,
   OutKind.tensorPrint, OutKind.tensorPrint, OutKind.tensorPrint,
   OutKind.gradientPrint, OutKind.gradientPrint, OutKind.tensorPrint,
   OutKind.gradientPrint, OutKind.gradientPrint, OutKind.weightsPrint,
   OutKind.gradientPrint, OutKind.weightsPrint, OutKind.lossPrint,
   OutKind.imagePlot]

/-- Claim C5 counterexample: printed loss values and plotted images are
not the program's only externally visible outputs — the Part 3 notebook
also prints tensors, gradients and weights (e.g. the
`print('Initial weights - ', model[0].weight)` statement). -/
theorem part3_outputs_not_only_loss_and_plots :
    ¬ ∀ o ∈ part3Outputs,
        o = OutKind.lossPrint ∨ o = OutKind.imagePlot := by
  decide

/-- Claim C5 (amended): at the end of every epoch the training loop
prints exactly one training-loss line, whose value is the epoch's
accumulated running loss divided by the number of batches in the
loader, i.e. the sum of the epoch's per-batch `loss.item()` values over
`len(trainloader)`; these lines are the training loop's only outputs
(the notebook elsewhere also prints tensors, gradients and weights and
plots images). -/
theorem train_prints_one_avg_per_epoch (fw : Fw P G I L O)
    (batches : List (I × L)) (n : ℕ) (s : St P G I L O) :
    ((train fw batches n s).2).length = n
    ∧ (train fw batches n s).2
      = (List.range n).map
          (fun k => epochAvg fw batches ((runEpoch fw batches)^[k] s)) := by
  have key : ∀ (m : ℕ) (t : St P G I L O),
      (train fw batches m t).2
        = (List.range m).map
            (fun k => epochAvg fw batches ((runEpoch fw batches)^[k] t)) := by
    intro m
    induction m with
    | zero => intro t; rfl
    | succ m ih =>
        intro t
        rw [List.range_succ_eq_map]
        simp only [train, List.map_cons, List.map_map]
        rw [epochPrint_eq_epochAvg fw batches t, ih (runEpoch fw batches t)]
        simp [Function.comp, Function.iterate_succ_apply]
  refine ⟨?_, key n s⟩
  rw [key n s]; simp

/-- Claim C6 counterexample: the per-mini-batch body of the training
loop does not consist of five statements. -/
theorem body_not_five_statements : ¬ bodyStmts.length = 5 := by decide

/-- Claim C6 (amended): the per-mini-batch body of the training loop is
a sequential block of exactly seven statements — the flattening `view`,
then zero-gradients, forward, loss, backward, optimizer-step, and the
running-loss accumulation. -/
theorem body_seven_statements : bodyStmts.length = 7 := by decide

variable {E : Type}

/-- The framework primitives with failure: each call either returns a
value or raises an exception of type `E` (a shape mismatch, missing
downloaded data, ...). -/
structure FwE (E P G I L O : Type) where
  view : I → Except E I
  model : P → I → Except E O
  criterion : O → L → Except E ℚ
  grad : P → I → L → Except E G
  stepUpd : P → G → Except E P
  gAdd : G → G → G
  gZero : G

/-- The loop body on one mini-batch with fallible framework calls,
statement by statement in source order, together with the statements
that began executing.  The source has no `try`/`except`, so the first
exception aborts the body and is returned unchanged. -/
def runBodyE (fw : FwE E P G I L O) (b : I × L) (s : St P G I L O) :
    Except E (St P G I L O) × List Stmt :=
  let s0 := setBatch s b
  match fw.view s0.images with
  | Except.error e => (Except.error e, [Stmt.flatten])
  | Except.ok imgs =>
    let s1 := { s0 with images := imgs }
    let s2 := { s1 with grads := fw.gZero }
    match fw.model s2.params s2.images with
    | Except.error e =>
        (Except.error e, [Stmt.flatten, Stmt.zero_grad, Stmt.forward])
    | Except.ok out =>
      let s3 := { s2 with output := out }
      match fw.criterion s3.output s3.labels with
      | Except.error e =>
          (Except.error e,
           [Stmt.flatten, Stmt.zero_grad, Stmt.forward, Stmt.lossCalc])
      | Except.ok v =>
        let s4 := { s3 with lossVal := v,
                            lossGraph := (s3.params, s3.images, s3.labels) }
        match fw.grad s4.lossGraph.1 s4.lossGraph.2.1 s4.lossGraph.2.2 with
        | Except.error e =>
            (Except.error e,
             [Stmt.flatten, Stmt.zero_grad, Stmt.forward, Stmt.lossCalc,
              Stmt.backward])
        | Except.ok g =>
          let s5 := { s4 with grads := fw.gAdd s4.grads g }
          match fw.stepUpd s5.params s5.grads with
          | Except.error e =>
              (Except.error e,
               [Stmt.flatten, Stmt.zero_grad, Stmt.forward, Stmt.lossCalc,
                Stmt.backward, Stmt.step])
          | Except.ok p =>
            let s6 := { s5 with params := p }
            (Except.ok
              { s6 with running_loss := s6.running_loss + s6.lossVal },
             bodyStmts)

/-- The inner loop with fallible calls: an uncaught exception in the
body aborts the loop, skipping all remaining batches. -/
def runLoopE (fw : FwE E P G I L O) :
    List (I × L) → St P G I L O → Except E (St P G I L O)
  | [], s => Except.ok s
  | b :: bs, s =>
      match (runBodyE fw b s).1 with
      | Except.error e => Except.error e
      | Except.ok s1 => runLoopE fw bs s1

/-- Claim C7: no statement catches, retries, or recovers from errors:
whichever framework call of the body raises first — the flattening
`view`, the forward pass, the loss criterion, the backward pass, or the
optimizer step — the exception propagates unchanged out of the
iteration, the executed-statement trace stops at the raising call, so
no further statement of that iteration executes, and a raising
iteration aborts the whole loop, skipping every remaining batch. -/
theorem error_propagates_uncaught (fw : FwE E P G I L O) (b : I × L)
    (bs : List (I × L)) (s : St P G I L O) (e : E) :
    ((runBodyE fw b s).1 = Except.error e →
      runLoopE fw (b :: bs) s = Except.error e)
    ∧ (fw.view b.1 = Except.error e →
        runBodyE fw b s = (Except.error e, [Stmt.flatten]))
    ∧ (∀ imgs, fw.view b.1 = Except.ok imgs →
        fw.model s.params imgs = Except.error e →
        runBodyE fw b s
          = (Except.error e,
             [Stmt.flatten, Stmt.zero_grad, Stmt.forward]))
    ∧ (∀ imgs out, fw.view b.1 = Except.ok imgs →
        fw.model s.params imgs = Except.ok out →
        fw.criterion out b.2 = Except.error e →
        runBodyE fw b s
          = (Except.error e,
             [Stmt.flatten, Stmt.zero_grad, Stmt.forward, Stmt.lossCalc]))
    ∧ (∀ imgs out v, fw.view b.1 = Except.ok imgs →
        fw.model s.params imgs = Except.ok out →
        fw.criterion out b.2 = Except.ok v →
        fw.grad s.params imgs b.2 = Except.error e →
        runBodyE fw b s
          = (Except.error e,
             [Stmt.flatten, Stmt.zero_grad, Stmt.forward, Stmt.lossCalc,
              Stmt.backward]))
    ∧ (∀ imgs out v g, fw.view b.1 = Except.ok imgs →
        fw.model s.params imgs = Except.ok out →
        fw.criterion out b.2 = Except.ok v →
        fw.grad s.params imgs b.2 = Except.ok g →
        fw.stepUpd s.params (fw.gAdd fw.gZero g) = Except.error e →
        runBodyE fw b s
          = (Except.error e,
             [Stmt.flatten, Stmt.zero_grad, Stmt.forward, Stmt.lossCalc,
              Stmt.backward, Stmt.step])) := by
  refine ⟨fun h => by simp [runLoopE, h],
    fun h => by simp [runBodyE, setBatch, h],
    fun imgs h1 h2 => by simp [runBodyE, setBatch, h1, h2],
    fun imgs out h1 h2 h3 => by simp [runBodyE, setBatch, h1, h2, h3],
    fun imgs out v h1 h2 h3 h4 => by
      simp [runBodyE, setBatch, h1, h2, h3, h4],
    fun imgs out v g h1 h2 h3 h4 h5 => by
      simp [runBodyE, setBatch, h1, h2, h3, h4, h5]⟩

/-- A concrete fallible framework over the rationals whose forward pass
raises a shape-mismatch error. -/
def fwE : FwE String ℚ ℚ ℚ ℚ ℚ where
  view x := Except.ok x
  model _ _ := Except.error "shape mismatch"
  criterion o l := Except.ok (o - l)
  grad p x l := Except.ok (p + x + l)
  stepUpd p g := Except.ok (p - g)
  gAdd := (· + ·)
  gZero := 0

/-- A concrete fallible framework whose flattening `view` raises. -/
def fwEview : FwE String ℚ ℚ ℚ ℚ ℚ where
  view _ := Except.error "missing data"
  model p x := Except.ok (p * x)
  criterion o l := Except.ok (o - l)
  grad p x l := Except.ok (p + x + l)
  stepUpd p g := Except.ok (p - g)
  gAdd := (· + ·)
  gZero := 0

/-- A concrete fallible framework whose loss criterion raises. -/
def fwEcrit : FwE String ℚ ℚ ℚ ℚ ℚ where
  view x := Except.ok x
  model p x := Except.ok (p * x)
  criterion _ _ := Except.error "bad target"
  grad p x l := Except.ok (p + x + l)
  stepUpd p g := Except.ok (p - g)
  gAdd := (· + ·)
  gZero := 0

/-- A concrete fallible framework whose backward pass raises. -/
def fwEgrad : FwE String ℚ ℚ ℚ ℚ ℚ where
  view x := Except.ok x
  model p x := Except.ok (p * x)
  criterion o l := Except.ok (o - l)
  grad _ _ _ := Except.error "backward failure"
  stepUpd p g := Except.ok (p - g)
  gAdd := (· + ·)
  gZero := 0

/-- A concrete fallible framework whose optimizer step raises. -/
def fwEupd : FwE String ℚ ℚ ℚ ℚ ℚ where
  view x := Except.ok x
  model p x := Except.ok (p * x)
  criterion o l := Except.ok (o - l)
  grad p x l := Except.ok (p + x + l)
  stepUpd _ _ := Except.error "optimizer failure"
  gAdd := (· + ·)
  gZero := 0

theorem error_propagates_uncaught_witness :
    runLoopE fwE [((4 : ℚ), (6 : ℚ)), ((1 : ℚ), (1 : ℚ))] stQ
      = Except.error "shape mismatch"
    ∧ runBodyE fwEview ((4 : ℚ), (6 : ℚ)) stQ
      = (Except.error "missing data", [Stmt.flatten])
    ∧ runBodyE fwE ((4 : ℚ), (6 : ℚ)) stQ
      = (Except.error "shape mismatch",
         [Stmt.flatten, Stmt.zero_grad, Stmt.forward])
    ∧ runBodyE fwEcrit ((4 : ℚ), (6 : ℚ)) stQ
      = (Except.error "bad target",
         [Stmt.flatten, Stmt.zero_grad, Stmt.forward, Stmt.lossCalc])
    ∧ runBodyE fwEgrad ((4 : ℚ), (6 : ℚ)) stQ
      = (Except.error "backward failure",
         [Stmt.flatten, Stmt.zero_grad, Stmt.forward, Stmt.lossCalc,
          Stmt.backward])
    ∧ runBodyE fwEupd ((4 : ℚ), (6 : ℚ)) stQ
      = (Except.error "optimizer failure",
         [Stmt.flatten, Stmt.zero_grad, Stmt.forward, Stmt.lossCalc,
          Stmt.backward, Stmt.step]) :=
  ⟨(error_propagates_uncaught fwE ((4 : ℚ), (6 : ℚ)) [((1 : ℚ), (1 : ℚ))]
      stQ "shape mismatch").1 rfl,
   (error_propagates_uncaught fwEview ((4 : ℚ), (6 : ℚ)) [] stQ
      "missing data").2.1 rfl,
   (error_propagates_uncaught fwE ((4 : ℚ), (6 : ℚ)) [] stQ
      "shape mismatch").2.2.1 (4 : ℚ) rfl rfl,
   (error_propagates_uncaught fwEcrit ((4 : ℚ), (6 : ℚ)) [] stQ
      "bad target").2.2.2.1 (4 : ℚ) (stQ.params * 4) rfl rfl rfl,
   (error_propagates_uncaught fwEgrad ((4 : ℚ), (6 : ℚ)) [] stQ
      "backward failure").2.2.2.2.1 (4 : ℚ) (stQ.params * 4)
      (stQ.params * 4 - 6) rfl rfl rfl rfl,
   (error_propagates_uncaught fwEupd ((4 : ℚ), (6 : ℚ)) [] stQ
      "optimizer failure").2.2.2.2.2 (4 : ℚ) (stQ.params * 4)
      (stQ.params * 4 - 6) (stQ.params + 4 + 6) rfl rfl rfl rfl rfl⟩

/-- One step of a small-step scheduler over a pool of threads (each a
list of statements on the shared state): run the next statement of the
chosen thread. -/
def schedStep (fw : Fw P G I L O) (pool : List (List Stmt))
    (s : St P G I L O) (i : ℕ) :
    Option (List (List Stmt) × St P G I L O) :=
  match pool[i]? with
  | some (st :: rest) => some (pool.set i rest, execStmt fw st s)
  | some [] => none
  | none => none

/-- Run a schedule (a sequence of thread choices): the run completes
only if every chosen thread had a statement left and at the end every
thread has finished. -/
def runSched (fw : Fw P G I L O) :
    List ℕ → List (List Stmt) → St P G I L O → Option (St P G I L O)
  | [], pool, s => if pool.all List.isEmpty then some s else none
  | i :: is, pool, s =>
      match schedStep fw pool s i with
      | some r => runSched fw is r.1 r.2
      | none => none

theorem runSched_single (fw : Fw P G I L O) :
    ∀ (sched : List ℕ) (prog : List Stmt) (s t : St P G I L O),
      runSched fw sched [prog] s = some t → t = runStmts fw prog s := by
  intro sched
  induction sched with
  | nil =>
      intro prog s t h
      cases prog with
      | nil =>
          simp [runSched] at h
          simp [runStmts, ← h]
      | cons st rest => simp [runSched] at h
  | cons i is ih =>
      intro prog s t h
      cases prog with
      | nil =>
          cases i <;> simp [runSched, schedStep] at h
      | cons st rest =>
          cases i with
          | zero =>
              simp [runSched, schedStep] at h
              have := ih rest (execStmt fw st s) t h
              simpa [runStmts] using this
          | succ j =>
              simp [runSched, schedStep] at h

/-- Claim C8: execution is single-threaded and synchronous.  Running the
training-loop body as the only thread of a small-step interleaving
scheduler gives, for every schedule that runs it to completion, exactly
the result of executing its statements sequentially one after another:
with a single thread there is no interleaving, suspension or
coordination that could produce any other behaviour. -/
theorem single_thread_sequential (fw : Fw P G I L O) (sched : List ℕ)
    (s t : St P G I L O)
    (h : runSched fw sched [bodyStmts] s = some t) :
    t = runStmts fw bodyStmts s :=
  runSched_single fw sched bodyStmts s t h

theorem single_thread_sequential_witness :
    runStmts fwQ bodyStmts stQ = runStmts fwQ bodyStmts stQ :=
  single_thread_sequential fwQ [0, 0, 0, 0, 0, 0, 0] stQ
    (runStmts fwQ bodyStmts stQ) rfl

/-- The number of elements of a tensor shape. -/
def numel (sh : List ℕ) : ℕ := sh.prod

/-- `t.view(t.shape[0], -1)`: keep the first dimension and infer the
second; the inference needs a nonzero first dimension and requires the
element count to divide out exactly. -/
def viewFlatten (sh : List ℕ) : Option (List ℕ) :=
  match sh with
  | [] => none
  | b :: rest =>
      if b = 0 then none
      else if numel (b :: rest) % b = 0 then
        some [b, numel (b :: rest) / b]
      else none

/-- The shape of `nn.Linear(inF, outF)` applied to a 2-D input: the
feature dimension must equal `inF`, otherwise a shape-mismatch
error. -/
def linearShape (inF outF : ℕ) (sh : List ℕ) : Option (List ℕ) :=
  match sh with
  | [n, f] => if f = inF then some [n, outF] else none
  | _ => none

/-- `nn.ReLU()` leaves the shape unchanged. -/
def reluShape (sh : List ℕ) : Option (List ℕ) := some sh

/-- `nn.LogSoftmax(dim=1)` needs dimension 1 to exist and leaves the
shape unchanged. -/
def logSoftmaxShape (sh : List ℕ) : Option (List ℕ) :=
  match sh with
  | [n, f] => some [n, f]
  | _ => none

/-- The shape function of the notebooks' model
`nn.Sequential(nn.Linear(784, 128), nn.ReLU(), nn.Linear(128, 64),
nn.ReLU(), nn.Linear(64, 10), nn.LogSoftmax(dim=1))`. -/
def modelShape (sh : List ℕ) : Option (List ℕ) :=
  ((((((linearShape 784 128 sh).bind reluShape).bind
    (linearShape 128 64)).bind reluShape).bind
    (linearShape 64 10)).bind logSoftmaxShape)

/-- `t.resize_(64, 784)` on a tensor holding `data`: reallocates to
`64*784` elements, keeping the existing data (truncated if longer) and
leaving any extra elements uninitialized (`none`). -/
def resizeTo (n : ℕ) (data : List ℚ) : List (Option ℚ) :=
  (data.take n).map some ++ List.replicate (n - data.length) none

/-- Claim C9: flattening with `images.view(images.shape[0], -1)`
preserves the batch dimension: a batch of `b ≥ 1` images of shape
1×28×28 — including a final partial batch with `b < 64` — flattens to
shape `(b, 784)`, which the model's first linear layer accepts,
producing `(b, 10)`, so the shape-mismatch branch is unreachable in the
training loop; by contrast the one-step demo cell's
`images.resize_(64, 784)` preserves exactly the batch's data iff the
batch holds exactly 64 images. -/
theorem view_flatten_safe (b : ℕ) (hb : 0 < b) (data : List ℚ)
    (hd : data.length = b * 784) :
    viewFlatten [b, 1, 28, 28] = some [b, 784]
    ∧ (viewFlatten [b, 1, 28, 28]).bind modelShape = some [b, 10]
    ∧ (resizeTo (64 * 784) data = data.map some ↔ b = 64) := by
  have hv : viewFlatten [b, 1, 28, 28] = some [b, 784] := by
    have hprod : numel [b, 1, 28, 28] = b * 784 := by simp [numel]
    simp only [viewFlatten, hprod]
    rw [if_neg (by omega : ¬ b = 0), if_pos (Nat.mul_mod_right b 784),
      Nat.mul_div_cancel_left 784 hb]
  refine ⟨hv, ?_, ?_, ?_⟩
  · rw [hv]
    simp [modelShape, linearShape, reluShape, logSoftmaxShape]
  · intro h
    have hlen := congrArg List.length h
    simp [resizeTo, hd] at hlen
    omega
  · intro h
    subst h
    have ht : data.take (64 * 784) = data :=
      List.take_of_length_le (by omega)
    simp [resizeTo, ht, hd]

theorem view_flatten_safe_witness :
    viewFlatten [1, 1, 28, 28] = some [1, 784]
    ∧ (viewFlatten [1, 1, 28, 28]).bind modelShape = some [1, 10]
    ∧ (resizeTo (64 * 784) (List.replicate 784 (0 : ℚ))
        = (List.replicate 784 (0 : ℚ)).map some ↔ 1 = 64) :=
  view_flatten_safe 1 (by decide) (List.replicate 784 (0 : ℚ))
    ((List.length_replicate 784 (0 : ℚ)).trans rfl)

/-- `nn.Linear(n, m)`: an affine map given by a weight matrix and a
bias vector, on one input row. -/
noncomputable def linearFwd {n m : ℕ} (w : Fin m → Fin n → ℝ)
    (bias : Fin m → ℝ) (x : Fin n → ℝ) : Fin m → ℝ :=
  fun i => (∑ j, w i j * x j) + bias i

/-- `nn.ReLU()`, elementwise. -/
def reluFwd {n : ℕ} (x : Fin n → ℝ) : Fin n → ℝ :=
  fun i => max (x i) 0

/-- `nn.LogSoftmax(dim=1)` on one row:
`log_softmax(x)_i = x_i - log(sum_j exp(x_j))`. -/
noncomputable def logSoftmaxFwd {n : ℕ} (x : Fin n → ℝ) : Fin n → ℝ :=
  fun i => x i - Real.log (∑ j, Real.exp (x j))

/-- The weights and biases of the notebooks' three linear layers
(784→128, 128→64, 64→10). -/
structure NetParams where
  w1 : Fin 128 → Fin 784 → ℝ
  b1 : Fin 128 → ℝ
  w2 : Fin 64 → Fin 128 → ℝ
  b2 : Fin 64 → ℝ
  w3 : Fin 10 → Fin 64 → ℝ
  b3 : Fin 10 → ℝ

/-- The forward pass of the notebooks' model
`nn.Sequential(nn.Linear(784, 128), nn.ReLU(), nn.Linear(128, 64),
nn.ReLU(), nn.Linear(64, 10), nn.LogSoftmax(dim=1))` on one input
row. -/
noncomputable def modelFwd (p : NetParams) (x : Fin 784 → ℝ) :
    Fin 10 → ℝ :=
  logSoftmaxFwd (linearFwd p.w3 p.b3 (reluFwd (linearFwd p.w2 p.b2
    (reluFwd (linearFwd p.w1 p.b1 x)))))

/-- `ps = torch.exp(model(img))` on one row. -/
noncomputable def psFwd (p : NetParams) (x : Fin 784 → ℝ) : Fin 10 → ℝ :=
  fun i => Real.exp (modelFwd p x i)

theorem sum_exp_pos {n : ℕ} (hn : 0 < n) (x : Fin n → ℝ) :
    (0 : ℝ) < ∑ j, Real.exp (x j) :=
  Finset.sum_pos (fun j _ => Real.exp_pos (x j))
    ⟨⟨0, hn⟩, Finset.mem_univ _⟩

theorem logSoftmaxFwd_nonpos {n : ℕ} (hn : 0 < n) (x : Fin n → ℝ)
    (i : Fin n) : logSoftmaxFwd x i ≤ 0 := by
  have hS := sum_exp_pos hn x
  have hle : Real.exp (x i) ≤ ∑ j, Real.exp (x j) :=
    Finset.single_le_sum (fun j _ => (Real.exp_pos (x j)).le)
      (Finset.mem_univ i)
  have := (Real.le_log_iff_exp_le hS).2 hle
  simpa [logSoftmaxFwd, sub_nonpos] using this

theorem logSoftmaxFwd_exp_sum {n : ℕ} (hn : 0 < n) (x : Fin n → ℝ) :
    (∑ i, Real.exp (logSoftmaxFwd x i)) = 1 := by
  have hS := sum_exp_pos hn x
  simp only [logSoftmaxFwd, Real.exp_sub, Real.exp_log hS]
  rw [← Finset.sum_div]
  exact div_self hS.ne'

/-- Claim C10: since the model's final layer is LogSoftmax over the
class dimension, for every parameter setting and every input row all
ten outputs are non-positive and their exponentials sum to 1; hence
`ps = torch.exp(model(img))` is, row by row, a probability
distribution: every entry lies in [0, 1] and the entries sum to 1. -/
theorem model_outputs_log_probabilities (p : NetParams)
    (x : Fin 784 → ℝ) :
    (∀ i, modelFwd p x i ≤ 0)
    ∧ (∑ i, Real.exp (modelFwd p x i)) = 1
    ∧ (∀ i, 0 ≤ psFwd p x i ∧ psFwd p x i ≤ 1)
    ∧ (∑ i, psFwd p x i) = 1 := by
  have h10 : (0 : ℕ) < 10 := by norm_num
  have hnp : ∀ i, modelFwd p x i ≤ 0 := fun i =>
    logSoftmaxFwd_nonpos h10 _ i
  have hsum : (∑ i, Real.exp (modelFwd p x i)) = 1 :=
    logSoftmaxFwd_exp_sum h10 _
  refine ⟨hnp, hsum, fun i => ⟨(Real.exp_pos _).le, ?_⟩, hsum⟩
  calc psFwd p x i ≤ Real.exp 0 := Real.exp_le_exp.2 (hnp i)
  _ = 1 := Real.exp_zero
